import Mathlib

/-!
Shallow embedding of the rerunner orchestrator (src/__main__.py).

The program sweeps a calendar date range, resolves each date to the last
git commit of that day, runs an update/configure/build/test pipeline per
commit, captures subprocess output into an artifact directory, and keeps
a progress.json checkpoint keyed by commit hash.

Conventions of the embedding:
* subprocess outcomes are oracles (`ProcResult`): the stdout, stderr and
  exit code the subprocess would produce;
* the filesystem written by `run` is an association list path -> content;
* `datetime.date` values are modelled as integers (day numbers), one day
  steps are plus or minus 1; the ISO rendering used in artifact names is
  supplied by the environment (`Env.dname`);
* the JSON progress object is an association list commit -> Bool that
  preserves insertion order, like a Python dict;
* exceptions (`RunException`) are `Except` values.
-/

namespace Rerunner

/-- Mirrors class RunException(Exception): message, cmd, stdout, stderr, code. -/
structure RunException where
  message : String
  cmd : List String
  stdout : String
  stderr : String
  code : Int
deriving DecidableEq, Repr

/-- Outcome oracle for one subprocess: what `Popen`/`communicate` would yield. -/
structure ProcResult where
  stdout : String
  stderr : String
  code : Int
deriving DecidableEq, Repr

/-- The files `run` writes: association list from path to content. -/
abbrev FileSys := List (String × String)

/-- Content of a file, empty if absent (what append mode sees for a new file). -/
def fsRead (fs : FileSys) (p : String) : String :=
  (fs.lookup p).getD ""

/-- Truncating write (mode "w"). -/
def fsWrite (fs : FileSys) (p c : String) : FileSys :=
  fs.filter (fun kv => kv.1 != p) ++ [(p, c)]

/-- Appending write (mode "a"); creates the file when absent. -/
def fsAppend (fs : FileSys) (p c : String) : FileSys :=
  fsWrite fs p (fsRead fs p ++ c)

/-- Mirrors def run(cmd, cwd, output_name, output_append): captures stdout and
stderr, writes them to output_name.out / output_name.err when requested
(truncating unless append), then raises RunException on a non-zero exit code
and otherwise returns the triple (stdout, stderr, code). The write happens
before the exit-code check, as in the source. -/
def run (cmd : List String) (cwd : Option String) (res : ProcResult)
    (output_name : Option String) (output_append : Bool) (fs : FileSys) :
    FileSys × Except RunException (String × String × Int) :=
  let fs2 := match output_name with
    | none => fs
    | some b =>
      if output_append then
        fsAppend (fsAppend fs (b ++ ".out") res.stdout) (b ++ ".err") res.stderr
      else
        fsWrite (fsWrite fs (b ++ ".out") res.stdout) (b ++ ".err") res.stderr
  if res.code ≠ 0 then
    (fs2, Except.error ⟨"failed to run ", cmd, res.stdout, res.stderr, res.code⟩)
  else
    (fs2, Except.ok (res.stdout, res.stderr, res.code))

/-- `run` without output persistence, projected to its raised/returned value. -/
def runE (cmd : List String) (cwd : Option String) (res : ProcResult) :
    Except RunException (String × String × Int) :=
  (run cmd cwd res none false []).2

/-- The shebang line RunnableScript.__enter__ writes, newline included. -/
def shebang : String := "#! /bin/bash -e\n"

/-- Content of the materialized script file: shebang then the script verbatim. -/
def scriptFileContent (script : String) : String :=
  shebang ++ script

/-- stat.S_IRUSR | stat.S_IWUSR | stat.S_IXUSR (octal 700). -/
def RWX : Nat := 0o400 + 0o200 + 0o100

/-- What RunnableScript.__enter__ materializes on disk. -/
structure MaterializedScript where
  path : String
  content : String
  mode : Nat
deriving DecidableEq, Repr

/-- Mirrors RunnableScript.__enter__: writes prefix + ".sh" containing the
shebang followed by the script text and chmods it to owner rwx. The file is
not deleted by __exit__ (the exit handler only re-raises). -/
def runnableScriptEnter (script : String) (pfx : String) : MaterializedScript :=
  { path := pfx ++ ".sh", content := scriptFileContent script, mode := RWX }

/-- First line of a character stream (up to, excluding, the first newline). -/
def takeLine : List Char → List Char
  | [] => []
  | c :: cs => if c = '\n' then [] else c :: takeLine cs

/-- First line of a string. -/
def lineOne (s : String) : String :=
  ⟨takeLine s.data⟩

/-- Split a character stream into space-separated words. -/
def wordsAux : List Char → List Char → List (List Char)
  | [], acc => if acc = [] then [] else [acc.reverse]
  | c :: cs, acc =>
    if c = ' ' then
      if acc = [] then wordsAux cs [] else acc.reverse :: wordsAux cs []
  else wordsAux cs (c :: acc)

/-- A short-option cluster word such as "-e" enabling single-letter option c.
The word "-o" introduces a long option name instead, and "--..." words are
long options, so neither counts. -/
def shortOptEnables (w : List Char) (c : Char) : Bool :=
  match w with
  | '-' :: rest =>
    match rest with
    | '-' :: _ => false
    | _ => decide (rest ≠ ['o']) && rest.contains c
  | _ => false

/-- Some word of the command line enables single-letter option c. -/
def enablesShort (ws : List (List Char)) (c : Char) : Bool :=
  ws.any (fun w => shortOptEnables w c)

/-- Some "-o name" pair of the command line enables long option name. -/
def enablesLong (ws : List (List Char)) (name : List Char) : Bool :=
  (ws.zip ws.tail).any (fun p => p.1 == ['-', 'o'] && p.2 == name)

/-- Modelled from the spec: a shebang line "selecting a strict-mode shell
(fail on first error, fail on unset variables, fail on pipeline errors)",
read as a bash invocation enabling errexit, nounset and pipefail. Used only
to compare the spec's words with the shebang the code actually writes. -/
def specStrictShebang (line : String) : Bool :=
  let ws := wordsAux line.data []
  (enablesShort ws 'e' || enablesLong ws "errexit".data) &&
  (enablesShort ws 'u' || enablesLong ws "nounset".data) &&
  enablesLong ws "pipefail".data

/-- pathlib's / operator on the string level. -/
def pathJoin (a b : String) : String := a ++ "/" ++ b

/-- One stage invocation as assembled by configure/build/test: the paths it
destructively removes first, the script file it materializes, and the run
call (command vector, working directory, output basename). -/
structure StageCall where
  preClean : List String
  scriptFile : String
  scriptContent : String
  cmd : List String
  cwd : String
  outName : String
deriving DecidableEq, Repr

/-- Mirrors def configure(work_dir, script, runner, output_name): removes
build/CMakeFiles, build/CMakeCache.txt and then the whole build directory,
materializes the script at output_name + ".sh", and runs it with
cwd=work_dir (the workspace root, not the build subdirectory). -/
def configure (work_dir script : String) (runner : List String)
    (output_name : String) : StageCall :=
  { preClean := [pathJoin (pathJoin work_dir "build") "CMakeFiles",
                 pathJoin (pathJoin work_dir "build") "CMakeCache.txt",
                 pathJoin work_dir "build"],
    scriptFile := output_name ++ ".sh",
    scriptContent := scriptFileContent script,
    cmd := runner ++ [output_name ++ ".sh"],
    cwd := work_dir,
    outName := output_name }

/-- Mirrors def build(...): no pre-clean, cwd = work_dir / "build". -/
def build (work_dir script : String) (runner : List String)
    (output_name : String) : StageCall :=
  { preClean := [],
    scriptFile := output_name ++ ".sh",
    scriptContent := scriptFileContent script,
    cmd := runner ++ [output_name ++ ".sh"],
    cwd := pathJoin work_dir "build",
    outName := output_name }

/-- Mirrors def test(...): cwd = work_dir / "build" / "packages" / "tpetra". -/
def test (work_dir script : String) (runner : List String)
    (output_name : String) : StageCall :=
  { preClean := [],
    scriptFile := output_name ++ ".sh",
    scriptContent := scriptFileContent script,
    cmd := runner ++ [output_name ++ ".sh"],
    cwd := pathJoin (pathJoin (pathJoin work_dir "build") "packages") "tpetra",
    outName := output_name }

/-- A single-quote character, used by git's --pretty=format argument. -/
def sq : String := ⟨['\'']⟩

/-- Python str.strip(): drop whitespace from both ends. -/
def pyStrip (s : String) : String :=
  ⟨((s.data.dropWhile Char.isWhitespace).reverse.dropWhile Char.isWhitespace).reverse⟩

/-- Python str.strip on quote characters: drop single quotes from both ends. -/
def stripQuotes (s : String) : String :=
  ⟨((s.data.dropWhile (fun c => c = '\'')).reverse.dropWhile (fun c => c = '\'')).reverse⟩

/-- Outcome oracle for the three git commands last_commit_before_end_of runs. -/
structure GitEnv where
  checkout : ProcResult
  reset : ProcResult
  log : ProcResult
deriving Repr

/-- The git log command built for a date string. -/
def logCmd (date_str : String) : List String :=
  ["git", "log", "--before=" ++ date_str ++ "T23:59:59",
   "--pretty=format:" ++ sq ++ "%H" ++ sq, "-1"]

/-- Mirrors def last_commit_before_end_of(work_dir, date): checkout develop,
hard-reset to origin/develop, then query the last commit at or before the
end of the day and return its hash with whitespace and quotes stripped.
Raises (propagates RunException) exactly when a git command exits non-zero;
an empty log result with exit code 0 is returned as the empty string. -/
def last_commit_before_end_of (g : GitEnv) (work_dir : String)
    (date_str : String) : Except RunException String := do
  let _ ← runE ["git", "checkout", "develop"] (some work_dir) g.checkout
  let _ ← runE ["git", "reset", "--hard", "origin/develop"] (some work_dir) g.reset
  let r ← runE (logCmd date_str) (some work_dir) g.log
  pure (stripQuotes (pyStrip r.1))

/-- The progress.json object: commit hash -> completed, insertion ordered. -/
abbrev Store := List (String × Bool)

/-- Mirrors def get_progress(dir, sha): when the file is absent it is created
holding an empty object; returns (store content, data.get(sha, False)). -/
def get_progress (file : Option Store) (sha : String) : Store × Bool :=
  match file with
  | none => ([], false)
  | some data => (data, (data.lookup sha).getD false)

/-- Mirrors def set_progress(dir, sha): reads the store and inserts sha -> True
only when the key is absent, then writes the store back. -/
def set_progress (data : Store) (sha : String) : Store :=
  if (data.lookup sha).isSome then data else data ++ [(sha, true)]

/-- Whether the progress store (None = file absent) records sha as done. -/
def isDone (file : Option Store) (sha : String) : Bool :=
  (get_progress file sha).2

/-- The pipeline stages the orchestrator can invoke for one date. -/
inductive Stage
  | update
  | config
  | build
  | test (i : Nat)
deriving DecidableEq, Repr

/-- One stage subprocess invocation: date, resolved commit, stage. -/
abbrev Ev := Int × String × Stage

/-- Orchestrator-visible state: the progress.json content (None = absent),
the artifact files created in out_dir in creation order, the trace of stage
subprocess invocations, and the commit the workspace is checked out at. -/
structure St where
  progressFile : Option Store
  files : List String
  trace : List Ev
  wsHead : String
deriving DecidableEq, Repr

/-- Environment oracle for one sweep: per-date commit resolution (None means
a git command of the resolver failed), the remote branch tip the resolver
hard-resets the workspace to, per-stage subprocess success, and the ISO
rendering of each date used in artifact names. -/
structure Env where
  resolveRes : Int → Option String
  remoteTip : Int → String
  ok : Int → Stage → Bool
  dname : Int → String

/-- The two capture files run writes for a stage output basename. -/
def stageOuts (b : String) : List String := [b ++ ".out", b ++ ".err"]

/-- One test repetition: materializes dname_04test{i}.sh, invokes the test
subprocess (cwd build/packages/tpetra), captures .out/.err; returns the new
state and whether the subprocess succeeded. -/
def runTest (env : Env) (d : Int) (c : String) (st : St) (i : Nat) : St × Bool :=
  let b := env.dname d ++ "_04test" ++ toString i
  let st1 := { st with files := st.files ++ [b ++ ".sh"],
                       trace := st.trace ++ [(d, c, Stage.test i)] }
  let st2 := { st1 with files := st1.files ++ stageOuts b }
  (st2, env.ok d (Stage.test i))

/-- The for ti in range(0, 5) loop: run test repetitions in order, stopping
at the first failure (its RunException aborts the date). -/
def runTests (env : Env) (d : Int) (c : String) : St → List Nat → St × Bool
  | st, [] => (st, true)
  | st, i :: rest =>
    let p := runTest env d c st i
    if p.2 then runTests env d c p.1 rest else (p.1, false)

/-- The per-date pipeline body run when the commit is not yet done:
update (git reset --hard commit, captured to dname_01update.*), configure
(script dname_02config.sh, captured to dname_02config.*), build
(dname_03build.*), five test repetitions, then set_progress. A stage whose
subprocess fails raises, so everything after it is skipped; the capture
files of the failing stage itself are still written (run writes before it
checks the exit code). -/
def pipeline (env : Env) (d : Int) (c : String) (data : Store) (st0 : St) : St :=
  let b1 := env.dname d ++ "_01update"
  let st1 := { st0 with trace := st0.trace ++ [(d, c, Stage.update)],
                        files := st0.files ++ stageOuts b1 }
  if env.ok d Stage.update then
    let st2 := { st1 with wsHead := c }
    let b2 := env.dname d ++ "_02config"
    let st3 := { st2 with files := st2.files ++ [b2 ++ ".sh"],
                          trace := st2.trace ++ [(d, c, Stage.config)] }
    let st4 := { st3 with files := st3.files ++ stageOuts b2 }
    if env.ok d Stage.config then
      let b3 := env.dname d ++ "_03build"
      let st5 := { st4 with files := st4.files ++ [b3 ++ ".sh"],
                            trace := st4.trace ++ [(d, c, Stage.build)] }
      let st6 := { st5 with files := st5.files ++ stageOuts b3 }
      if env.ok d Stage.build then
        let p := runTests env d c st6 (List.range 5)
        if p.2 then { p.1 with progressFile := some (set_progress data c) }
        else p.1
      else st6
    else st4
  else st1

/-- One iteration of the date loop body (the try/except block): resolve the
date to a commit (the resolver hard-resets the workspace to the remote tip;
a resolver failure is caught and abandons the date), read the progress
store (creating progress.json when absent), and either skip the commit or
run the pipeline. Any RunException is caught, so the state reached at the
failure point is kept and the sweep moves on. -/
def processDate (env : Env) (st : St) (d : Int) : St :=
  match env.resolveRes d with
  | none => st
  | some c =>
    let st1 := { st with wsHead := env.remoteTip d }
    let created : Bool := st1.progressFile.isNone
    let gp := get_progress st1.progressFile c
    let st2 := { st1 with
                 progressFile := some gp.1,
                 files := st1.files ++ (if created then ["progress.json"] else []) }
    if gp.2 then st2 else pipeline env d c gp.1 st2

/-- The dates the while loop processes, in order: starting at s, while the
cursor differs from e, process it and step +1 when e is later, -1
otherwise. The loop condition is checked before the body, so e itself is
never processed. -/
def visited (s e : Int) : List Int :=
  if s = e then []
  else s :: visited (if e > s then s + 1 else s - 1) e
termination_by (e - s).natAbs
decreasing_by
  split_ifs <;> omega

/-- The whole date loop: thread the state through the processed dates. -/
def sweep (env : Env) (st : St) (s e : Int) : St :=
  if s = e then st
  else sweep env (processDate env st s) (if e > s then s + 1 else s - 1) e
termination_by (e - s).natAbs
decreasing_by
  split_ifs <;> omega

/-- A stage of the pipeline fails for date d. -/
def pipelineFails (env : Env) (d : Int) : Bool :=
  !(env.ok d Stage.update && env.ok d Stage.config && env.ok d Stage.build &&
    ((List.range 5).all fun i => env.ok d (Stage.test i)))

/-- A git environment for a date with no commit at or before its end of day
in a repository whose branch exists: checkout and reset succeed, and the
bounded log query succeeds with empty output (git exits 0 and prints
nothing when no commit matches the --before bound). -/
def gitEmpty : GitEnv := ⟨⟨"", "", 0⟩, ⟨"", "", 0⟩, ⟨"", "", 0⟩⟩

/-- Environment where every date resolves to commit c2 and every stage
succeeds. -/
def envA : Env :=
  { resolveRes := fun _ => some "c2", remoteTip := fun _ => "tip",
    ok := fun _ _ => true, dname := fun d => toString d }

/-- State whose progress store already records commit c1 as done. -/
def stA : St :=
  { progressFile := some [("c1", true)], files := [], trace := [], wsHead := "c1" }

/-- Environment where every date resolves to commit c1 and the build stage
fails while every other stage succeeds. -/
def envB : Env :=
  { resolveRes := fun _ => some "c1", remoteTip := fun _ => "tip",
    ok := fun _ s => match s with | Stage.build => false | _ => true,
    dname := fun d => toString d }

/-- State with an existing empty progress store. -/
def stB : St :=
  { progressFile := some [], files := [], trace := [], wsHead := "w" }

/-- Environment where every date renders as 2024-03-02, resolves to commit
c1, and every stage succeeds. -/
def env9 : Env :=
  { resolveRes := fun _ => some "c1", remoteTip := fun _ => "tip",
    ok := fun _ _ => true, dname := fun _ => "2024-03-02" }

/-- State with an existing empty progress store and no artifacts yet. -/
def st9 : St :=
  { progressFile := some [], files := [], trace := [], wsHead := "w" }

/-- The artifact files C9 claims a fully processed date 2024-03-02 produces:
the .out/.err pairs of update, config, build and the five test repetitions
and nothing else. -/
def claimC9Files : List String :=
  ["2024-03-02_01update.out", "2024-03-02_01update.err",
   "2024-03-02_02config.out", "2024-03-02_02config.err",
   "2024-03-02_03build.out", "2024-03-02_03build.err",
   "2024-03-02_04test0.out", "2024-03-02_04test0.err",
   "2024-03-02_04test1.out", "2024-03-02_04test1.err",
   "2024-03-02_04test2.out", "2024-03-02_04test2.err",
   "2024-03-02_04test3.out", "2024-03-02_04test3.err",
   "2024-03-02_04test4.out", "2024-03-02_04test4.err"]

/-- Environment whose remote branch tip differs from the commit the
workspace is left at. -/
def env10 : Env :=
  { resolveRes := fun _ => some "c1", remoteTip := fun _ => "newtip",
    ok := fun _ _ => true, dname := fun _ => "d" }

/-- State after commit c1 completed on an earlier date: c1 recorded done and
the workspace checked out at c1. -/
def st10 : St :=
  { progressFile := some [("c1", true)], files := [], trace := [], wsHead := "c1" }

/-! ## Helper lemmas -/

/-- Unfolding equation of the date walk. -/
theorem visited_eq (s e : Int) :
    visited s e = if s = e then [] else s :: visited (if e > s then s + 1 else s - 1) e := by
  rw [visited]

/-- Unfolding equation of the sweep. -/
theorem sweep_eq (env : Env) (st : St) (s e : Int) :
    sweep env st s e =
      if s = e then st
      else sweep env (processDate env st s) (if e > s then s + 1 else s - 1) e := by
  rw [sweep]

/-- Ascending walk: when the start is at or before the end, the dates
visited are start, start+1, ..., end-1. -/
theorem visited_of_le :
    ∀ (n : Nat) (s e : Int), s ≤ e → (e - s).toNat = n →
      visited s e = (List.range n).map (fun (i : Nat) => s + (i : Int)) := by
  intro n
  induction n with
  | zero =>
    intro s e hle h
    have hse : s = e := by omega
    subst hse
    rw [visited_eq, if_pos rfl]
    simp
  | succ m ih =>
    intro s e hle h
    rw [visited_eq, if_neg (by omega : ¬ s = e), if_pos (by omega : e > s)]
    rw [ih (s + 1) e (by omega) (by omega)]
    rw [List.range_succ_eq_map]
    simp only [List.map_cons, List.map_map, Nat.cast_zero, add_zero]
    have hf : ((fun (i : Nat) => s + (i : Int)) ∘ Nat.succ) = fun (i : Nat) => s + 1 + (i : Int) := by
      funext i
      simp only [Function.comp_apply]
      push_cast
      ring
    rw [hf]

/-- Descending walk: when the start is at or after the end, the dates
visited are start, start-1, ..., end+1. -/
theorem visited_of_ge :
    ∀ (n : Nat) (s e : Int), e ≤ s → (s - e).toNat = n →
      visited s e = (List.range n).map (fun (i : Nat) => s - (i : Int)) := by
  intro n
  induction n with
  | zero =>
    intro s e hle h
    have hse : s = e := by omega
    subst hse
    rw [visited_eq, if_pos rfl]
    simp
  | succ m ih =>
    intro s e hle h
    rw [visited_eq, if_neg (by omega : ¬ s = e), if_neg (by omega : ¬ e > s)]
    rw [ih (s - 1) e (by omega) (by omega)]
    rw [List.range_succ_eq_map]
    simp only [List.map_cons, List.map_map, Nat.cast_zero, sub_zero]
    have hf : ((fun (i : Nat) => s - (i : Int)) ∘ Nat.succ) = fun (i : Nat) => s - 1 - (i : Int) := by
      funext i
      simp only [Function.comp_apply]
      push_cast
      ring
    rw [hf]

/-- Membership in the date walk. -/
theorem visited_mem (s e d : Int) :
    d ∈ visited s e ↔ ((s ≤ d ∧ d < e) ∨ (e < d ∧ d ≤ s)) := by
  rcases le_total s e with hle | hge
  · rw [visited_of_le (e - s).toNat s e hle rfl]
    simp only [List.mem_map, List.mem_range]
    constructor
    · rintro ⟨i, hi, rfl⟩
      left
      omega
    · rintro (⟨h1, h2⟩ | ⟨h1, h2⟩)
      · exact ⟨(d - s).toNat, by omega, by omega⟩
      · omega
  · rw [visited_of_ge (s - e).toNat s e hge rfl]
    simp only [List.mem_map, List.mem_range]
    constructor
    · rintro ⟨i, hi, rfl⟩
      right
      omega
    · rintro (⟨h1, h2⟩ | ⟨h1, h2⟩)
      · omega
      · exact ⟨(s - d).toNat, by omega, by omega⟩

/-- The date walk visits no date twice. -/
theorem visited_nodup (s e : Int) : (visited s e).Nodup := by
  rcases le_total s e with hle | hge
  · rw [visited_of_le (e - s).toNat s e hle rfl]
    exact List.Nodup.map (fun a b hab => by omega) (List.nodup_range _)
  · rw [visited_of_ge (s - e).toNat s e hge rfl]
    exact List.Nodup.map (fun a b hab => by omega) (List.nodup_range _)

/-- Association-list lookup distributes over append. -/
theorem lookup_append (l₁ l₂ : Store) (k : String) :
    (l₁ ++ l₂).lookup k =
      match l₁.lookup k with
      | some v => some v
      | none => l₂.lookup k := by
  induction l₁ with
  | nil => simp [List.lookup]
  | cons a l ih =>
    obtain ⟨k', v⟩ := a
    simp only [List.cons_append, List.lookup]
    cases h : k == k' with
    | true => rfl
    | false => exact ih

/-- set_progress never turns a done commit back into a pending one. -/
theorem lookup_set_progress (data : Store) (c cp : String)
    (h : (data.lookup c).getD false = true) :
    ((set_progress data cp).lookup c).getD false = true := by
  unfold set_progress
  split
  · exact h
  · rw [lookup_append]
    cases hl : data.lookup c with
    | none => rw [hl] at h; simp at h
    | some b =>
      rw [hl] at h
      simp only [Option.getD_some] at h
      simp [h]

/-! ## Claim theorems -/

/-- C1 (corrected): the date walk visits exactly the calendar dates of the
half-open range from start_date toward end_date, each exactly once,
stepping one day at a time, ascending when end_date is after start_date and
descending otherwise; end_date itself is never processed, because the loop
condition `current_date != end_date` is checked before the body runs. -/
theorem main_walk_c1 (s e : Int) :
    e ∉ visited s e ∧
    (visited s e).Nodup ∧
    (∀ d : Int, d ∈ visited s e ↔ ((s ≤ d ∧ d < e) ∨ (e < d ∧ d ≤ s))) ∧
    (s ≤ e → visited s e = (List.range (e - s).toNat).map (fun (i : Nat) => s + (i : Int))) ∧
    (e ≤ s → visited s e = (List.range (s - e).toNat).map (fun (i : Nat) => s - (i : Int))) := by
  refine ⟨?_, visited_nodup s e, fun d => visited_mem s e d,
    fun h => visited_of_le (e - s).toNat s e h rfl,
    fun h => visited_of_ge (s - e).toNat s e h rfl⟩
  intro hmem
  rw [visited_mem] at hmem
  omega

/-- Witness for C1 at start 0, end 3: the ascending-case equation applies. -/
theorem main_walk_c1_w :
    (0 : Int) ≤ 3 ∧
    visited 0 3 = (List.range ((3 : Int) - 0).toNat).map (fun (i : Nat) => (0 : Int) + (i : Int)) :=
  ⟨by norm_num, (main_walk_c1 0 3).2.2.2.1 (by norm_num)⟩

/-- C1 counterexample: with start 0 and end 3 the walk visits 0, 1, 2 only;
the end date 3 is not visited, so the claimed inclusive range is wrong. -/
theorem main_walk_c1_cex : visited 0 3 = [0, 1, 2] ∧ (3 : Int) ∉ visited 0 3 := by
  have h := visited_of_le 3 0 3 (by decide) (by decide)
  refine ⟨?_, ?_⟩ <;> rw [h] <;> decide

/-- C4 (confirmed): run returns (stdout, stderr, 0) exactly when the
subprocess exits 0, and otherwise raises a RunException carrying the
command, the captured stdout, the captured stderr and the exit code; it
raises in no other case. -/
theorem run_outcome_c4 (cmd : List String) (cwd : Option String) (res : ProcResult)
    (output_name : Option String) (app : Bool) (fs : FileSys) :
    (res.code = 0 →
       (run cmd cwd res output_name app fs).2 = Except.ok (res.stdout, res.stderr, 0)) ∧
    (res.code ≠ 0 →
       (run cmd cwd res output_name app fs).2 =
         Except.error ⟨"failed to run ", cmd, res.stdout, res.stderr, res.code⟩) := by
  constructor
  · intro h
    simp [run, h]
  · intro h
    simp [run, h]

/-- Witness for C4: a process exiting 0 with output o and e. -/
theorem run_outcome_c4_w :
    (ProcResult.mk "o" "e" 0).code = 0 ∧
    (run ["x"] none (ProcResult.mk "o" "e" 0) none false []).2 = Except.ok ("o", "e", 0) :=
  ⟨rfl, (run_outcome_c4 ["x"] none (ProcResult.mk "o" "e" 0) none false []).1 rfl⟩

/-- C5 (amended): the configure stage runs with working directory equal to
the workspace root (not the build subdirectory), the build stage runs in
workspace/build, and the test stage runs in workspace/build/packages/tpetra. -/
theorem stage_cwd_c5 (wd s : String) (r : List String) (o : String) :
    (configure wd s r o).cwd = wd ∧
    (build wd s r o).cwd = pathJoin wd "build" ∧
    (test wd s r o).cwd = pathJoin (pathJoin (pathJoin wd "build") "packages") "tpetra" :=
  ⟨rfl, rfl, rfl⟩

/-- C5 counterexample: the configure stage of workspace "ws" runs in "ws",
which is not the build subdirectory "ws/build" the claim requires. -/
theorem stage_cwd_c5_cex :
    (configure "ws" "s" [] "o").cwd = "ws" ∧
    (configure "ws" "s" [] "o").cwd ≠ pathJoin "ws" "build" :=
  ⟨rfl, by decide⟩

/-- C6 (amended): entering the scoped script runner produces prefix + ".sh"
whose content is the shebang line selecting bash with only the
fail-on-first-error option, followed verbatim by the script text, with
permissions owner read/write/execute only (octal 700 = 448); the shebang
does not enable fail-on-unset-variables or fail-on-pipeline-errors. -/
theorem runnable_script_c6 (script pfx : String) :
    (runnableScriptEnter script pfx).path = pfx ++ ".sh" ∧
    (runnableScriptEnter script pfx).content = shebang ++ script ∧
    (runnableScriptEnter script pfx).mode = 448 ∧
    lineOne shebang = "#! /bin/bash -e" ∧
    enablesShort (wordsAux (lineOne shebang).data []) 'e' = true ∧
    enablesShort (wordsAux (lineOne shebang).data []) 'u' = false ∧
    enablesLong (wordsAux (lineOne shebang).data []) "pipefail".data = false :=
  ⟨rfl, rfl, rfl, by decide, by decide, by decide, by decide⟩

/-- C6 counterexample: the materialized script's shebang line is
"#! /bin/bash -e", which does not satisfy the spec's strict-mode shell
requirement (fail on unset variables and on pipeline errors are missing). -/
theorem runnable_script_c6_cex :
    (runnableScriptEnter "echo hi" "/out/x").content = shebang ++ "echo hi" ∧
    specStrictShebang (lineOne (runnableScriptEnter "echo hi" "/out/x").content) = false :=
  ⟨rfl, by decide⟩

/-- C7 (amended): the commit resolver propagates a RunException exactly when
one of its git commands exits non-zero; when the bounded log query succeeds
with empty output, which is what git does when no commit exists at or
before the end of the date, it returns the empty string instead of
failing. -/
theorem resolver_empty_c7 (g : GitEnv) (wd ds : String)
    (h1 : g.checkout.code = 0) (h2 : g.reset.code = 0) :
    (g.log.code = 0 →
       last_commit_before_end_of g wd ds = Except.ok (stripQuotes (pyStrip g.log.stdout))) ∧
    (g.log.code = 0 → g.log.stdout = "" →
       last_commit_before_end_of g wd ds = Except.ok "") ∧
    (g.log.code ≠ 0 →
       last_commit_before_end_of g wd ds =
         Except.error ⟨"failed to run ", logCmd ds, g.log.stdout, g.log.stderr, g.log.code⟩) := by
  refine ⟨?_, ?_, ?_⟩
  · intro h3
    simp only [last_commit_before_end_of, runE, run, h1, h2, h3]
    rfl
  · intro h3 h4
    simp only [last_commit_before_end_of, runE, run, h1, h2, h3, h4]
    rfl
  · intro h3
    simp only [last_commit_before_end_of, runE, run, h1, h2, h3, ne_eq,
      not_false_eq_true, if_true]
    rfl

/-- Witness for C7: with all git commands succeeding and an empty log
result, the resolver returns the empty string. -/
theorem resolver_empty_c7_w :
    gitEmpty.checkout.code = 0 ∧ gitEmpty.reset.code = 0 ∧ gitEmpty.log.code = 0 ∧
    gitEmpty.log.stdout = "" ∧
    last_commit_before_end_of gitEmpty "wd" "2024-01-01" = Except.ok "" :=
  ⟨rfl, rfl, rfl, rfl,
    (resolver_empty_c7 gitEmpty "wd" "2024-01-01" rfl rfl).2.1 rfl rfl⟩

/-- C7 counterexample: for a date with no commit at or before its end of
day (checkout and reset succeed, the bounded log query exits 0 with empty
output), the resolver returns the empty commit identifier instead of
failing with a surfaced error. -/
theorem resolver_empty_c7_cex :
    last_commit_before_end_of gitEmpty "wd" "2024-01-01" = Except.ok "" := rfl

/-- C8 (confirmed): is_done creates an empty store when the file is absent
and returns false for any commit not recorded as done, and mark_done is
idempotent: marking a commit done twice leaves the store exactly as
marking it once. -/
theorem progress_store_c8 (sha : String) (data : Store) :
    get_progress none sha = ([], false) ∧
    (data.lookup sha ≠ some true → (get_progress (some data) sha).2 = false) ∧
    set_progress (set_progress data sha) sha = set_progress data sha := by
  refine ⟨rfl, ?_, ?_⟩
  · intro h
    simp only [get_progress]
    cases hl : data.lookup sha with
    | none => simp
    | some b =>
      cases b with
      | false => simp
      | true => exact absurd hl h
  · by_cases h : (data.lookup sha).isSome
    · simp [set_progress, h]
    · have hn : data.lookup sha = none := by
        cases hl : data.lookup sha with
        | none => rfl
        | some b => rw [hl] at h; simp at h
      have h2 : set_progress data sha = data ++ [(sha, true)] := by
        simp [set_progress, h]
      rw [h2]
      have h3 : ((data ++ [(sha, true)]).lookup sha).isSome := by
        rw [lookup_append, hn]
        simp [List.lookup]
      simp [set_progress, h3]

/-- Witness for C8: a commit absent from the store is reported not done. -/
theorem progress_store_c8_w :
    (([("a", true)] : Store).lookup "b" ≠ some true) ∧
    (get_progress (some [("a", true)]) "b").2 = false :=
  ⟨by decide, (progress_store_c8 "b" [("a", true)]).2.1 (by decide)⟩

/-- Test repetitions add only trace events for the commit being processed. -/
theorem runTests_filter (env : Env) (d : Int) (c cq : String) (hne : (c == cq) = false) :
    ∀ (l : List Nat) (st : St),
      (runTests env d c st l).1.trace.filter (fun ev => ev.2.1 == cq) =
        st.trace.filter (fun ev => ev.2.1 == cq) := by
  intro l
  induction l with
  | nil => intro st; rfl
  | cons i rest ih =>
    intro st
    cases h : env.ok d (Stage.test i) with
    | true =>
      have h2 : (runTest env d c st i).2 = true := h
      simp only [runTests]
      rw [if_pos h2, ih]
      show (st.trace ++ [(d, c, Stage.test i)]).filter _ = _
      simp [List.filter_append, hne]
    | false =>
      have h2 : ¬((runTest env d c st i).2 = true) := by
        show ¬(env.ok d (Stage.test i) = true)
        simp [h]
      simp only [runTests]
      rw [if_neg h2]
      show (st.trace ++ [(d, c, Stage.test i)]).filter _ = _
      simp [List.filter_append, hne]

/-- Test repetitions never touch the progress store. -/
theorem runTests_progressFile (env : Env) (d : Int) (c : String) :
    ∀ (l : List Nat) (st : St),
      (runTests env d c st l).1.progressFile = st.progressFile := by
  intro l
  induction l with
  | nil => intro st; rfl
  | cons i rest ih =>
    intro st
    cases h : env.ok d (Stage.test i) with
    | true =>
      have h2 : (runTest env d c st i).2 = true := h
      simp only [runTests]
      rw [if_pos h2, ih]
      rfl
    | false =>
      have h2 : ¬((runTest env d c st i).2 = true) := by
        show ¬(env.ok d (Stage.test i) = true)
        simp [h]
      simp only [runTests]
      rw [if_neg h2]
      rfl

/-- The test loop succeeds exactly when every repetition's subprocess does. -/
theorem runTests_ok_iff (env : Env) (d : Int) (c : String) :
    ∀ (l : List Nat) (st : St),
      ((runTests env d c st l).2 = true ↔ ∀ i ∈ l, env.ok d (Stage.test i) = true) := by
  intro l
  induction l with
  | nil => intro st; simp [runTests]
  | cons i rest ih =>
    intro st
    cases h : env.ok d (Stage.test i) with
    | true =>
      have h2 : (runTest env d c st i).2 = true := h
      simp only [runTests]
      rw [if_pos h2, ih]
      simp [h]
    | false =>
      have h2 : ¬((runTest env d c st i).2 = true) := by
        show ¬(env.ok d (Stage.test i) = true)
        simp [h]
      simp only [runTests]
      rw [if_neg h2]
      simp [List.forall_mem_cons, h]

/-- The pipeline for a commit adds only trace events for that commit. -/
theorem pipeline_filter (env : Env) (d : Int) (c cq : String) (data : Store) (st : St)
    (hne : (c == cq) = false) :
    (pipeline env d c data st).trace.filter (fun ev => ev.2.1 == cq) =
      st.trace.filter (fun ev => ev.2.1 == cq) := by
  simp only [pipeline]
  split_ifs with h1 h2 h3 h4 <;>
    simp [runTests_filter env d c cq hne, List.filter_append, hne]

/-- The pipeline either leaves the progress store alone (a stage failed) or
records exactly set_progress of the commit it ran for. -/
theorem pipeline_progress (env : Env) (d : Int) (c : String) (data : Store) (st : St) :
    (pipeline env d c data st).progressFile = st.progressFile ∨
    (pipeline env d c data st).progressFile = some (set_progress data c) := by
  simp only [pipeline]
  split_ifs with h1 h2 h3 h4
  · exact Or.inr rfl
  · exact Or.inl (by rw [runTests_progressFile env d c])
  · exact Or.inl rfl
  · exact Or.inl rfl
  · exact Or.inl rfl

/-- When some stage of the pipeline fails, the progress store is untouched. -/
theorem pipeline_progress_fail (env : Env) (d : Int) (c : String) (data : Store) (st : St)
    (hf : pipelineFails env d = true) :
    (pipeline env d c data st).progressFile = st.progressFile := by
  simp only [pipeline]
  split_ifs with h1 h2 h3 h4
  · exfalso
    have hall : ∀ i ∈ List.range 5, env.ok d (Stage.test i) = true :=
      (runTests_ok_iff env d c (List.range 5) _).mp h4
    have hA : ((List.range 5).all fun i => env.ok d (Stage.test i)) = true :=
      List.all_eq_true.mpr hall
    have hFalse : pipelineFails env d = false := by
      simp [pipelineFails, h1, h2, h3, hA]
    rw [hFalse] at hf
    simp at hf
  · rw [runTests_progressFile env d c]
  · rfl
  · rfl
  · rfl

/-- Reduction of one loop iteration when resolution succeeds and the
progress file already exists. -/
theorem processDate_eq_some (env : Env) (st : St) (d : Int) (c : String) (data : Store)
    (hres : env.resolveRes d = some c) (hpf : st.progressFile = some data) :
    processDate env st d =
      if (data.lookup c).getD false = true then
        { st with wsHead := env.remoteTip d, progressFile := some data }
      else pipeline env d c data
        { st with wsHead := env.remoteTip d, progressFile := some data } := by
  simp only [processDate, hres, hpf, get_progress, Option.isNone_some, Bool.false_eq_true,
    if_false, List.append_nil]

/-- Reduction of one loop iteration when resolution succeeds and the
progress file is absent: it is created empty, the commit is pending. -/
theorem processDate_eq_none (env : Env) (st : St) (d : Int) (c : String)
    (hres : env.resolveRes d = some c) (hpf : st.progressFile = none) :
    processDate env st d = pipeline env d c []
      { st with
          wsHead := env.remoteTip d,
          progressFile := some [],
          files := st.files ++ ["progress.json"] } := by
  simp only [processDate, hres, hpf, get_progress, Option.isNone_none, if_true,
    List.lookup, Option.getD_none, Bool.false_eq_true, if_false]

/-- One loop iteration for an already-done commit: the resolved commit being
recorded done in the store implies the iteration adds no trace events for
it and keeps it recorded done. -/
theorem processDate_done_step (env : Env) (st : St) (d : Int) (cq : String)
    (h : isDone st.progressFile cq = true) :
    (processDate env st d).trace.filter (fun ev => ev.2.1 == cq) =
      st.trace.filter (fun ev => ev.2.1 == cq) ∧
    isDone (processDate env st d).progressFile cq = true := by
  obtain ⟨data, hdf⟩ : ∃ data, st.progressFile = some data := by
    cases hf : st.progressFile with
    | none => rw [hf] at h; simp [isDone, get_progress] at h
    | some data => exact ⟨data, rfl⟩
  have hdc : (data.lookup cq).getD false = true := by
    rw [hdf] at h
    simpa [isDone, get_progress] using h
  cases hres : env.resolveRes d with
  | none =>
    refine ⟨?_, ?_⟩
    · simp [processDate, hres]
    · simp only [processDate, hres]
      exact h
  | some c =>
    rw [processDate_eq_some env st d c data hres hdf]
    by_cases hdone : (data.lookup c).getD false = true
    · rw [if_pos hdone]
      exact ⟨rfl, by simp [isDone, get_progress, hdc]⟩
    · rw [if_neg hdone]
      have hne : (c == cq) = false := by
        rcases Bool.eq_false_or_eq_true (c == cq) with hb | hb
        · exfalso
          have hcq : c = cq := by simpa using hb
          rw [hcq] at hdone
          exact hdone hdc
        · exact hb
      constructor
      · rw [pipeline_filter env d c cq data _ hne]
      · rcases pipeline_progress env d c data
          { st with wsHead := env.remoteTip d, progressFile := some data } with hp | hp
        · rw [hp]
          simp [isDone, get_progress, hdc]
        · rw [hp]
          simp only [isDone, get_progress]
          exact lookup_set_progress data cq c hdc

/-- A property preserved by every loop iteration is preserved by the sweep. -/
theorem sweep_preserve (env : Env) (P : St → Prop)
    (hstep : ∀ st d, P st → P (processDate env st d)) :
    ∀ (n : Nat) (st : St) (s e : Int), (e - s).natAbs = n → P st → P (sweep env st s e) := by
  intro n
  induction n with
  | zero =>
    intro st s e hn hP
    have hse : s = e := by omega
    rw [sweep_eq, if_pos hse]
    exact hP
  | succ m ih =>
    intro st s e hn hP
    rcases eq_or_ne s e with hse | hse
    · rw [sweep_eq, if_pos hse]
      exact hP
    · rw [sweep_eq, if_neg hse]
      by_cases hgt : e > s
      · rw [if_pos hgt]
        exact ih _ (s + 1) e (by omega) (hstep st s hP)
      · rw [if_neg hgt]
        exact ih _ (s - 1) e (by omega) (hstep st s hP)

/-- The sweep is the left fold of one-date processing over the visited dates,
so every date of the walk is attempted no matter what earlier dates did. -/
theorem sweep_eq_foldl (env : Env) :
    ∀ (n : Nat) (st : St) (s e : Int), (e - s).natAbs = n →
      sweep env st s e = (visited s e).foldl (processDate env) st := by
  intro n
  induction n with
  | zero =>
    intro st s e hn
    have hse : s = e := by omega
    rw [sweep_eq, visited_eq, if_pos hse, if_pos hse]
    rfl
  | succ m ih =>
    intro st s e hn
    rcases eq_or_ne s e with hse | hse
    · rw [sweep_eq, visited_eq, if_pos hse, if_pos hse]
      rfl
    · rw [sweep_eq, visited_eq, if_neg hse, if_neg hse]
      simp only [List.foldl_cons]
      by_cases hgt : e > s
      · rw [if_pos hgt]
        exact ih _ (s + 1) e (by omega)
      · rw [if_neg hgt]
        exact ih _ (s - 1) e (by omega)

/-- Closed form of sweep_eq_foldl. -/
theorem sweep_foldl (env : Env) (st0 : St) (s e : Int) :
    sweep env st0 s e = (visited s e).foldl (processDate env) st0 :=
  sweep_eq_foldl env ((e - s).natAbs) st0 s e rfl

/-- C2 (confirmed): once a commit is recorded done in the progress store, a
sweep over any date range invokes no stage subprocess for that commit (its
filtered trace does not grow), and the commit stays recorded done: no
operation resets a progress entry from true to false. -/
theorem progress_monotone_c2 (env : Env) (st : St) (s e : Int) (cq : String)
    (h : isDone st.progressFile cq = true) :
    (sweep env st s e).trace.filter (fun ev => ev.2.1 == cq) =
      st.trace.filter (fun ev => ev.2.1 == cq) ∧
    isDone (sweep env st s e).progressFile cq = true := by
  exact sweep_preserve env
    (fun x => x.trace.filter (fun ev => ev.2.1 == cq) =
        st.trace.filter (fun ev => ev.2.1 == cq) ∧
      isDone x.progressFile cq = true)
    (fun x d hx => by
      obtain ⟨hx1, hx2⟩ := hx
      obtain ⟨hy1, hy2⟩ := processDate_done_step env x d cq hx2
      exact ⟨hy1.trans hx1, hy2⟩)
    ((e - s).natAbs) st s e rfl ⟨rfl, h⟩

/-- Witness for C2: commit c1 marked done, swept over dates 0 and 1 in an
environment resolving every date to commit c2. -/
theorem progress_monotone_c2_w :
    isDone stA.progressFile "c1" = true ∧
    ((sweep envA stA 0 2).trace.filter (fun ev => ev.2.1 == "c1") =
       stA.trace.filter (fun ev => ev.2.1 == "c1") ∧
     isDone (sweep envA stA 0 2).progressFile "c1" = true) :=
  ⟨by decide, progress_monotone_c2 envA stA 0 2 "c1" (by decide)⟩

/-- C3 (confirmed): when a date's pipeline fails at some stage, the commit is
not marked done; in the build-failure case the trace of that date is exactly
update, configure, build — the test stage never runs; and the sweep still
folds over every date of the walk, so the next date is attempted. -/
theorem failure_isolation_c3 (env : Env) (st : St) (d : Int) (cq : String)
    (hres : env.resolveRes d = some cq)
    (hnd : isDone st.progressFile cq = false) :
    (pipelineFails env d = true → isDone (processDate env st d).progressFile cq = false) ∧
    (env.ok d Stage.update = true → env.ok d Stage.config = true →
     env.ok d Stage.build = false →
       (processDate env st d).trace =
         st.trace ++ [(d, cq, Stage.update), (d, cq, Stage.config), (d, cq, Stage.build)]) ∧
    (∀ (st0 : St) (s e : Int), sweep env st0 s e = (visited s e).foldl (processDate env) st0) := by
  cases hf : st.progressFile with
  | none =>
    rw [processDate_eq_none env st d cq hres hf]
    refine ⟨?_, ?_, fun st0 s e => sweep_foldl env st0 s e⟩
    · intro hfail
      rw [pipeline_progress_fail env d cq [] _ hfail]
      simp [isDone, get_progress, List.lookup]
    · intro h1 h2 h3
      simp only [pipeline]
      rw [if_pos h1, if_pos h2, if_neg (by simp [h3])]
      show ((st.trace ++ [(d, cq, Stage.update)]) ++ [(d, cq, Stage.config)]) ++
        [(d, cq, Stage.build)] = _
      simp [List.append_assoc]
  | some data =>
    have hdc : (data.lookup cq).getD false = false := by
      rw [hf] at hnd
      simpa [isDone, get_progress] using hnd
    rw [processDate_eq_some env st d cq data hres hf, if_neg (by simp [hdc])]
    refine ⟨?_, ?_, fun st0 s e => sweep_foldl env st0 s e⟩
    · intro hfail
      rw [pipeline_progress_fail env d cq data _ hfail]
      simp [isDone, get_progress, hdc]
    · intro h1 h2 h3
      simp only [pipeline]
      rw [if_pos h1, if_pos h2, if_neg (by simp [h3])]
      show ((st.trace ++ [(d, cq, Stage.update)]) ++ [(d, cq, Stage.config)]) ++
        [(d, cq, Stage.build)] = _
      simp [List.append_assoc]

/-- Witness for C3: an environment whose build stage fails for every date. -/
theorem failure_isolation_c3_w :
    envB.resolveRes 0 = some "c1" ∧ isDone stB.progressFile "c1" = false ∧
    ((pipelineFails envB 0 = true → isDone (processDate envB stB 0).progressFile "c1" = false) ∧
     (envB.ok 0 Stage.update = true → envB.ok 0 Stage.config = true →
      envB.ok 0 Stage.build = false →
        (processDate envB stB 0).trace =
          stB.trace ++ [(0, "c1", Stage.update), (0, "c1", Stage.config), (0, "c1", Stage.build)]) ∧
     (∀ (st0 : St) (s e : Int), sweep envB st0 s e = (visited s e).foldl (processDate envB) st0)) :=
  ⟨by decide, by decide, failure_isolation_c3 envB stB 0 "c1" (by decide) (by decide)⟩

/-- C9 (amended): a fully successful date adds to the output directory
exactly the update .out/.err pair, the config .sh/.out/.err triple, the
build .sh/.out/.err triple and five test .sh/.out/.err triples (the .sh
files are the retained materialized scripts the claim's list omits); the
test subprocess runs exactly five times, with basenames numbered 0 to 4;
and the commit is then recorded done. -/
theorem artifacts_c9 (env : Env) (st : St) (d : Int) (cq : String) (data : Store)
    (hres : env.resolveRes d = some cq)
    (hpf : st.progressFile = some data)
    (hnd : (data.lookup cq).getD false = false)
    (hupd : env.ok d Stage.update = true)
    (hcfg : env.ok d Stage.config = true)
    (hbld : env.ok d Stage.build = true)
    (ht0 : env.ok d (Stage.test 0) = true)
    (ht1 : env.ok d (Stage.test 1) = true)
    (ht2 : env.ok d (Stage.test 2) = true)
    (ht3 : env.ok d (Stage.test 3) = true)
    (ht4 : env.ok d (Stage.test 4) = true) :
    (processDate env st d).files = st.files ++
      [env.dname d ++ "_01update" ++ ".out", env.dname d ++ "_01update" ++ ".err",
       env.dname d ++ "_02config" ++ ".sh", env.dname d ++ "_02config" ++ ".out",
       env.dname d ++ "_02config" ++ ".err",
       env.dname d ++ "_03build" ++ ".sh", env.dname d ++ "_03build" ++ ".out",
       env.dname d ++ "_03build" ++ ".err",
       env.dname d ++ "_04test" ++ toString 0 ++ ".sh",
       env.dname d ++ "_04test" ++ toString 0 ++ ".out",
       env.dname d ++ "_04test" ++ toString 0 ++ ".err",
       env.dname d ++ "_04test" ++ toString 1 ++ ".sh",
       env.dname d ++ "_04test" ++ toString 1 ++ ".out",
       env.dname d ++ "_04test" ++ toString 1 ++ ".err",
       env.dname d ++ "_04test" ++ toString 2 ++ ".sh",
       env.dname d ++ "_04test" ++ toString 2 ++ ".out",
       env.dname d ++ "_04test" ++ toString 2 ++ ".err",
       env.dname d ++ "_04test" ++ toString 3 ++ ".sh",
       env.dname d ++ "_04test" ++ toString 3 ++ ".out",
       env.dname d ++ "_04test" ++ toString 3 ++ ".err",
       env.dname d ++ "_04test" ++ toString 4 ++ ".sh",
       env.dname d ++ "_04test" ++ toString 4 ++ ".out",
       env.dname d ++ "_04test" ++ toString 4 ++ ".err"] ∧
    (processDate env st d).trace = st.trace ++
      [(d, cq, Stage.update), (d, cq, Stage.config), (d, cq, Stage.build),
       (d, cq, Stage.test 0), (d, cq, Stage.test 1), (d, cq, Stage.test 2),
       (d, cq, Stage.test 3), (d, cq, Stage.test 4)] ∧
    (processDate env st d).progressFile = some (set_progress data cq) := by
  rw [processDate_eq_some env st d cq data hres hpf, if_neg (by simp [hnd])]
  simp only [pipeline]
  rw [if_pos hupd, if_pos hcfg, if_pos hbld]
  rw [show List.range 5 = [0, 1, 2, 3, 4] from rfl]
  simp only [runTests, runTest]
  simp only [stageOuts]
  simp [ht0, ht1, ht2, ht3, ht4, List.append_assoc]

/-- Witness for C9: every stage succeeds for date 0 in env9, producing the
full artifact list for 2024-03-02. -/
theorem artifacts_c9_w :
    env9.resolveRes 0 = some "c1" ∧ st9.progressFile = some [] ∧
    (([] : Store).lookup "c1").getD false = false ∧
    (processDate env9 st9 0).progressFile = some (set_progress [] "c1") :=
  ⟨by decide, by decide, by decide,
    (artifacts_c9 env9 st9 0 "c1" [] (by decide) (by decide) (by decide) (by decide)
      (by decide) (by decide) (by decide) (by decide) (by decide) (by decide)
      (by decide)).2.2⟩

/-- C9 counterexample: processing 2024-03-02 also creates the retained
script file 2024-03-02_02config.sh in the output directory, which the
claim's exact artifact list does not contain. -/
theorem artifacts_c9_cex :
    "2024-03-02_02config.sh" ∈ (processDate env9 st9 0).files ∧
    "2024-03-02_02config.sh" ∉ claimC9Files := by
  decide

/-- C10 (amended): when a visited date resolves to a commit already recorded
done, the iteration invokes no stage, creates no file, and leaves the
output directory and progress store unchanged — but the workspace is not
unchanged: the commit resolution that precedes the progress check has
already hard-reset it to the remote branch tip. -/
theorem skip_frame_c10 (env : Env) (st : St) (d : Int) (cq : String) (data : Store)
    (hres : env.resolveRes d = some cq)
    (hpf : st.progressFile = some data)
    (hdone : (data.lookup cq).getD false = true) :
    (processDate env st d).files = st.files ∧
    (processDate env st d).trace = st.trace ∧
    (processDate env st d).progressFile = st.progressFile ∧
    (processDate env st d).wsHead = env.remoteTip d := by
  rw [processDate_eq_some env st d cq data hres hpf, if_pos hdone]
  exact ⟨rfl, rfl, by rw [hpf], rfl⟩

/-- Witness for C10: date 5 resolves to the done commit c1; nothing is
invoked or created, and the workspace ends at the remote tip. -/
theorem skip_frame_c10_w :
    env10.resolveRes 5 = some "c1" ∧ st10.progressFile = some [("c1", true)] ∧
    (([("c1", true)] : Store).lookup "c1").getD false = true ∧
    ((processDate env10 st10 5).files = st10.files ∧
     (processDate env10 st10 5).trace = st10.trace ∧
     (processDate env10 st10 5).progressFile = st10.progressFile ∧
     (processDate env10 st10 5).wsHead = env10.remoteTip 5) :=
  ⟨by decide, by decide, by decide,
    skip_frame_c10 env10 st10 5 "c1" [("c1", true)] (by decide) (by decide) (by decide)⟩

/-- C10 counterexample: on the skip path no stage runs and no file is
created, but the workspace head changes from c1 to the remote tip, so the
claim that the skip path leaves the workspace unchanged is false. -/
theorem skip_frame_c10_cex :
    (processDate env10 st10 5).trace = st10.trace ∧
    (processDate env10 st10 5).files = st10.files ∧
    (processDate env10 st10 5).wsHead ≠ st10.wsHead := by
  decide

end Rerunner
